import Mathlib

/-!
Verification of the TrendRadar notification engine
(`trendradar/notification/senders.py`): batch splitting, per-batch header
injection, per-channel dispatch loops (Feishu, DingTalk, WeCom, Telegram,
Slack, ntfy, Bark), payload building, and the aggregate success verdicts.

Pure parts of the Python source are embedded as Lean functions; the HTTP
transport is modelled as a function from the request URL and the call
index to an optional platform response (`none` models a raised transport
exception, which the sender's `try`/`except` blocks catch).  The injected
`split_content_func` is a caller-supplied callable that may raise; its
result is modelled with `Except`, and the senders invoke it outside of any
`try`/`except`, so an `.error` propagates out of them.
-/

set_option maxHeartbeats 1000000

namespace TrendRadar

/-! ## UTF-8 byte accounting

`String.utf8ByteSize` is the Lean counterpart of Python's
`len(s.encode("utf-8"))`; `utf8LenChars` lets us reason about it through
the character list. -/

/-- UTF-8 byte length of a character list (mirrors the accumulator of
`String.utf8ByteSize`). -/
def utf8LenChars : List Char → Nat
  | [] => 0
  | c :: cs => utf8LenChars cs + c.utf8Size

/-! ## Content Splitter

Modelled from the spec (§4.1): the concrete `split_content_func` injected
into every sender is not part of the source under review, so we embed the
spec's contract.  A report is taken as the ordered list of its pre-rendered
item fragments (§6, `ReportRenderer`); the splitter packs consecutive items
into chunks of at most `maxBytes` UTF-8 bytes, never cutting inside an
item; a single item whose rendered text alone exceeds `maxBytes` is placed
alone in its own oversized chunk; a non-positive `maxBytes` fails with
`BudgetExhausted` (§7). -/

inductive SplitError where
  | budgetExhausted
  | headerOverflow
deriving Repr, DecidableEq

/-- Greedy packing of item fragments into chunks of at most `maxB` UTF-8
bytes, carrying the chunk under construction in `cur`. -/
def packItems (maxB : Nat) : List String → String → List String
  | [], cur => if cur = "" then [] else [cur]
  | it :: rest, cur =>
    if cur = "" then packItems maxB rest it
    else if (cur ++ it).utf8ByteSize ≤ maxB then packItems maxB rest (cur ++ it)
    else cur :: packItems maxB rest it

/-- Modelled from the spec: the Content Splitter contract
`split(report, format, maxBytes) -> [chunk]` (§4.1), standing in for the
repository's `split_content_func`, whose implementation is not under
`src/`. -/
def split_content (items : List String) (maxBytes : Int) :
    Except SplitError (List String) :=
  if maxBytes ≤ 0 then .error .budgetExhausted
  else .ok (packItems maxBytes.toNat items "")

/-! ## Header Injector

Modelled from the spec (§4.2): `add_batch_headers` and
`get_max_batch_header_size` are imported by `senders.py` from
`trendradar/notification/batch.py`, which is not under `src/`.  Batch `i`
of `n` receives a banner stating `i/n`; the injector defensively checks
the budget and fails with `HeaderOverflow` when a batch would exceed it. -/

/-- Modelled from the spec: the per-batch banner stating `i/n` (§4.2). -/
def batch_header (i n : Nat) : String := s!"({i}/{n}) "

/-- Modelled from the spec: the queried, format-specific header reserve
(§4.2), taken as the size of the largest banner the injector emits. -/
def get_max_batch_header_size (_format_type : String) : Nat :=
  (batch_header 999 999).utf8ByteSize

/-- Modelled from the spec: the Header Injector contract
`attachHeaders([chunk], format, maxBatchBytes) -> [batch]` (§4.2),
standing in for the repository's `add_batch_headers`. -/
def add_batch_headers (chunks : List String) (_format_type : String)
    (batch_size : Nat) : Except SplitError (List String) :=
  let n := chunks.length
  let withHeader := chunks.enum.map (fun p => batch_header (p.1 + 1) n ++ p.2)
  if withHeader.all (fun b => decide (b.utf8ByteSize ≤ batch_size)) then
    .ok withHeader
  else .error .headerOverflow

/-- The split-then-add-headers pipeline every sender runs before its send
loop: reserve header space, split, inject headers
(`senders.py` lines 260-271 and the analogous block in each sender). -/
def batchPipeline (items : List String) (format_type : String)
    (batch_size : Nat) : Except SplitError (List String) :=
  match split_content items
      ((batch_size : Int) - (get_max_batch_header_size format_type : Int)) with
  | .error e => .error e
  | .ok chunks => add_batch_headers chunks format_type batch_size

/-! ## Post-batching payload text transformations

Modelled from the spec (§4.3): `strip_markdown` and
`convert_markdown_to_mrkdwn` are imported from
`trendradar/notification/formatters.py`, which is not under `src/`.  The
spec describes them as "strip all markup entirely for plain-text channels"
and "convert a common markdown dialect to the channel's own flavor". -/

def isMarkupChar (c : Char) : Bool :=
  c == '*' || c == '#' || c == '`' || c == '_'

/-- Modelled from the spec: `strip_markdown` — removes markdown markup
characters, leaving the plain text (§4.3, WeCom text mode). -/
def strip_markdown (s : String) : String :=
  String.mk (s.data.filter (fun c => !isMarkupChar c))

/-- Slack variant of markdown bold: `**` becomes `*`. -/
def mrkdwnChars : List Char → List Char
  | [] => []
  | [c] => [c]
  | c₁ :: c₂ :: rest =>
    if c₁ = '*' ∧ c₂ = '*' then '*' :: mrkdwnChars rest
    else c₁ :: mrkdwnChars (c₂ :: rest)

/-- Modelled from the spec: `convert_markdown_to_mrkdwn` — converts the
common markdown dialect into Slack's mrkdwn flavor (§4.3). -/
def convert_markdown_to_mrkdwn (s : String) : String :=
  String.mk (mrkdwnChars s.data)

/-- Character-wise lowercase, Python's `msg_type.lower()` (line 628). -/
def lowerString (s : String) : String := String.mk (s.data.map Char.toLower)

/-- WeCom payload text: text mode strips markdown, markdown mode keeps the
batch content as is (`send_to_wework`, lines 628-660). -/
def weworkPayloadText (msg_type : String) (batch_content : String) : String :=
  if lowerString msg_type = "text" then strip_markdown batch_content
  else batch_content

/-! ## Platform responses and their interpretation

Each structure carries exactly the fields of the HTTP response that the
sender inspects; `Option Int` fields model `result.get(...)` on the parsed
JSON body (`none` = key absent). -/

/-- Feishu webhook response: HTTP status plus `StatusCode`/`code` fields of
the JSON body (`send_to_feishu`, lines 310-313). -/
structure FeishuResp where
  status : Nat
  statusCodeField : Option Int
  codeField : Option Int
deriving Repr, DecidableEq

/-- DingTalk webhook response (`send_to_dingtalk`, lines 561-563). -/
structure DingtalkResp where
  status : Nat
  errcode : Option Int
deriving Repr, DecidableEq

/-- WeCom webhook response (`send_to_wework`, lines 670-672). -/
structure WeworkResp where
  status : Nat
  errcode : Option Int
deriving Repr, DecidableEq

/-- Telegram API response (`send_to_telegram`, lines 767-769). -/
structure TelegramResp where
  status : Nat
  okField : Bool
deriving Repr, DecidableEq

/-- Slack webhook response (`send_to_slack`, line 1337). -/
structure SlackResp where
  status : Nat
  text : String
deriving Repr, DecidableEq

/-- ntfy response: only the HTTP status is inspected (`send_to_ntfy`,
lines 1062-1096). -/
structure NtfyResp where
  status : Nat
deriving Repr, DecidableEq

/-- Bark response: HTTP status plus the `code` field of the JSON body
(`send_to_bark`, lines 1226-1228). -/
structure BarkResp where
  status : Nat
  code : Option Int
deriving Repr, DecidableEq

/-- `send_to_feishu` batch success: HTTP 200 and
`result.get("StatusCode") == 0 or result.get("code") == 0`
(lines 310-313). -/
def feishuBatchOk (r : FeishuResp) : Bool :=
  r.status == 200 && (r.statusCodeField == some 0 || r.codeField == some 0)

/-- `send_to_dingtalk` batch success: HTTP 200 and
`result.get("errcode") == 0` (lines 561-563). -/
def dingtalkBatchOk (r : DingtalkResp) : Bool :=
  r.status == 200 && r.errcode == some 0

/-- `send_to_wework` batch success: HTTP 200 and
`result.get("errcode") == 0` (lines 670-672). -/
def weworkBatchOk (r : WeworkResp) : Bool :=
  r.status == 200 && r.errcode == some 0

/-- `send_to_telegram` batch success: HTTP 200 and a truthy
`result.get("ok")` (lines 767-769). -/
def telegramBatchOk (r : TelegramResp) : Bool :=
  r.status == 200 && r.okField

/-- `send_to_slack` batch success: HTTP 200 and response text `"ok"`
(line 1337). -/
def slackBatchOk (r : SlackResp) : Bool :=
  r.status == 200 && r.text == "ok"

/-- `send_to_bark` batch success: HTTP 200 and `result.get("code") == 200`
(lines 1226-1228). -/
def barkBatchOk (r : BarkResp) : Bool :=
  r.status == 200 && r.code == some 200

/-- Whether one transport call (an `Option` response, `none` = raised
exception) counts as a successful batch under the platform's success
predicate. -/
def callOk {ρ : Type} (okResp : ρ → Bool) : Option ρ → Bool
  | none => false
  | some r => okResp r

/-! ## Strict-order send loop

Shared shape of the Feishu / DingTalk / WeCom / Telegram / Slack loops
(`for i, batch_content in enumerate(batches, 1)` with `return False` on
the first failing batch).  The transport takes the request URL and the
zero-based index of the HTTP call made so far; the loop returns the
boolean verdict together with the number of transport invocations. -/

def strictLoop {ρ : Type} (okResp : ρ → Bool)
    (trans : String → Nat → Option ρ) (url : String) :
    List String → Nat → Bool × Nat
  | [], calls => (true, calls)
  | _ :: rest, calls =>
    match trans url calls with
    | none => (false, calls + 1)
    | some r =>
      if okResp r then strictLoop okResp trans url rest (calls + 1)
      else (false, calls + 1)

/-- `send_to_feishu` (lines 217-334): the injected split function may
raise (modelled by `.error`, which escapes the sender); on `.ok batches`
the strict-order loop posts every batch to the webhook until the first
failure. -/
def send_to_feishu (webhook_url : String)
    (split : Except String (List String))
    (trans : String → Nat → Option FeishuResp) : Except String (Bool × Nat) :=
  match split with
  | .error e => .error e
  | .ok batches => .ok (strictLoop feishuBatchOk trans webhook_url batches 0)

/-- `send_to_dingtalk` (lines 488-583). -/
def send_to_dingtalk (webhook_url : String)
    (split : Except String (List String))
    (trans : String → Nat → Option DingtalkResp) : Except String (Bool × Nat) :=
  match split with
  | .error e => .error e
  | .ok batches => .ok (strictLoop dingtalkBatchOk trans webhook_url batches 0)

/-- `send_to_wework` (lines 586-692); `msg_type` selects the payload text
via `weworkPayloadText` but does not change the loop. -/
def send_to_wework (webhook_url : String) (_msg_type : String)
    (split : Except String (List String))
    (trans : String → Nat → Option WeworkResp) : Except String (Bool × Nat) :=
  match split with
  | .error e => .error e
  | .ok batches => .ok (strictLoop weworkBatchOk trans webhook_url batches 0)

/-- The Telegram API URL built from the bot token (line 729). -/
def telegramUrl (bot_token : String) : String :=
  "https://api.telegram.org/bot" ++ bot_token ++ "/sendMessage"

/-- `send_to_telegram` (lines 695-789). -/
def send_to_telegram (bot_token : String)
    (split : Except String (List String))
    (trans : String → Nat → Option TelegramResp) : Except String (Bool × Nat) :=
  match split with
  | .error e => .error e
  | .ok batches =>
    .ok (strictLoop telegramBatchOk trans (telegramUrl bot_token) batches 0)

/-- `send_to_slack` (lines 1268-1353); each batch is converted with
`convert_markdown_to_mrkdwn` before posting. -/
def send_to_slack (webhook_url : String)
    (split : Except String (List String))
    (trans : String → Nat → Option SlackResp) : Except String (Bool × Nat) :=
  match split with
  | .error e => .error e
  | .ok batches => .ok (strictLoop slackBatchOk trans webhook_url batches 0)

/-! ## Best-effort send loops (ntfy, Bark)

These senders reverse the batch order before sending (newest-on-top
platforms), try every batch regardless of failures, count successes, and
report success when at least one batch went through. -/

/-- Remove trailing slashes; Python's `server_url.rstrip("/")`
(line 1006). -/
def rstripSlash (s : String) : String :=
  String.mk ((s.data.reverse.dropWhile (fun c => c == '/')).reverse)

/-- The full ntfy URL (lines 1005-1009): normalise the server URL, default
to https, then append the topic. -/
def ntfyUrl (server_url topic : String) : String :=
  let base_url := rstripSlash server_url
  let base_url :=
    if base_url.startsWith "http://" || base_url.startsWith "https://" then
      base_url
    else "https://" ++ base_url
  base_url ++ "/" ++ topic

/-- `reversed(batches)` (lines 1029 and 1187): batches are pushed last
batch first so that newest-on-top clients display the logical order. -/
def reversedBatches (batches : List String) : List String := batches.reverse

/-- `actual_batch_num = total_batches - idx + 1` (lines 1037 and 1195):
the logical (user-visible) batch number for the `idx`-th physical send
(1-based). -/
def actualBatchNum (total_batches idx : Nat) : Nat := total_batches - idx + 1

/-- The physical send sequence: for each physical position (0-based here,
`idx = position + 1` in the source) the reported logical batch number and
the batch content sent there (lines 1035-1037 / 1193-1195). -/
def sendSequence (batches : List String) : List (Nat × String) :=
  (reversedBatches batches).enum.map
    (fun p => (actualBatchNum batches.length (p.1 + 1), p.2))

/-- The ntfy `Title` header for one batch: the `i/n` marker is added only
when there is more than one batch (lines 1049-1051). -/
def ntfyTitle (report_type_en : String) (actual total : Nat) : String :=
  if 1 < total then report_type_en ++ s!" ({actual}/{total})"
  else report_type_en

/-- The (Title, body) pairs handed to the ntfy transport, in physical send
order. -/
def ntfyRequests (report_type_en : String) (batches : List String) :
    List (String × String) :=
  (sendSequence batches).map
    (fun p => (ntfyTitle report_type_en p.1 batches.length, p.2))

/-- One ntfy batch send with the 429 rate-limit retry (lines 1053-1088):
200 succeeds; 429 waits and retries exactly once, the retry outcome being
final; any other status or a raised exception fails the batch.  Returns
the batch outcome and the advanced call counter. -/
def ntfySendBatch (trans : String → Nat → Option NtfyResp) (url : String)
    (calls : Nat) : Bool × Nat :=
  match trans url calls with
  | none => (false, calls + 1)
  | some r =>
    if r.status = 200 then (true, calls + 1)
    else if r.status = 429 then
      match trans url (calls + 1) with
      | none => (false, calls + 2)
      | some retry_response => (decide (retry_response.status = 200), calls + 2)
    else (false, calls + 1)

/-- The ntfy send loop over the (already reversed) batch list: counts the
successful batches and threads the transport call counter
(lines 1034-1109). -/
def ntfyLoop (trans : String → Nat → Option NtfyResp) (url : String) :
    List String → Nat → Nat × Nat
  | [], calls => (0, calls)
  | _ :: rest, calls =>
    let sent := ntfySendBatch trans url calls
    let tail := ntfyLoop trans url rest sent.2
    ((if sent.1 then 1 else 0) + tail.1, tail.2)

/-- The per-batch outcomes of the ntfy loop, in physical send order. -/
def ntfyOutcomes (trans : String → Nat → Option NtfyResp) (url : String) :
    List String → Nat → List Bool
  | [], _ => []
  | _ :: rest, calls =>
    (ntfySendBatch trans url calls).1 ::
      ntfyOutcomes trans url rest (ntfySendBatch trans url calls).2

/-- The number of ntfy batches that succeeded (`success_count`,
lines 1034-1109). -/
def ntfySuccessCount (trans : String → Nat → Option NtfyResp) (url : String)
    (batches : List String) : Nat :=
  (ntfyLoop trans url (reversedBatches batches) 0).1

/-- `send_to_ntfy` (lines 948-1120): reverse the batches, attempt all of
them, and report overall success when every batch succeeded or at least
one did (lines 1111-1120). -/
def send_to_ntfy (server_url topic : String)
    (split : Except String (List String))
    (trans : String → Nat → Option NtfyResp) : Except String (Bool × Nat) :=
  match split with
  | .error e => .error e
  | .ok batches =>
    let url := ntfyUrl server_url topic
    let total_batches := batches.length
    let run := ntfyLoop trans url (reversedBatches batches) 0
    .ok (if run.1 = total_batches then true
         else if 0 < run.1 then true
         else false, run.2)

/-- Strip slashes from both ends; Python's `path.strip('/')`
(line 1164). -/
def stripSlashes (s : String) : String :=
  String.mk
    (((s.data.dropWhile (fun c => c == '/')).reverse.dropWhile
      (fun c => c == '/')).reverse)

/-- Split a character list at a separator character; Python's
`str.split(sep)` for a one-character separator. -/
def splitOnCharAux (sep : Char) : List Char → List Char → List String
  | [], acc => [String.mk acc.reverse]
  | c :: rest, acc =>
    if c == sep then String.mk acc.reverse :: splitOnCharAux sep rest []
    else splitOnCharAux sep rest (c :: acc)

/-- Python's `s.split(sep)` for a one-character separator. -/
def splitOnChar (sep : Char) (s : String) : List String :=
  splitOnCharAux sep s.data []

/-- Extraction of the Bark device key from the parsed URL path
(line 1164): `parsed_url.path.strip('/').split('/')[0] if parsed_url.path
else None`. -/
def barkDeviceKey (path : String) : Option String :=
  if path = "" then none
  else some ((splitOnChar '/' (stripSlashes path)).headD "")

/-- Python's `if not device_key` (line 1166): missing or empty. -/
def barkDeviceKeyUsable (path : String) : Bool :=
  match barkDeviceKey path with
  | none => false
  | some k => !(k == "")

/-- The Bark push endpoint rebuilt from the parsed URL (line 1171). -/
def barkApiEndpoint (scheme netloc : String) : String :=
  scheme ++ "://" ++ netloc ++ "/push"

/-- The Bark send loop over the (already reversed) batch list: one
transport call per batch, never aborting, counting successes
(lines 1192-1254). -/
def barkLoop (trans : String → Nat → Option BarkResp) (url : String) :
    List String → Nat → Nat × Nat
  | [], calls => (0, calls)
  | _ :: rest, calls =>
    let ok := callOk barkBatchOk (trans url calls)
    let tail := barkLoop trans url rest (calls + 1)
    ((if ok then 1 else 0) + tail.1, tail.2)

/-- The per-batch outcomes of the Bark loop, in physical send order. -/
def barkOutcomes (trans : String → Nat → Option BarkResp) (url : String) :
    List String → Nat → List Bool
  | [], _ => []
  | _ :: rest, calls =>
    callOk barkBatchOk (trans url calls) :: barkOutcomes trans url rest (calls + 1)

/-- The number of Bark batches that succeeded (`success_count`,
lines 1192-1254). -/
def barkSuccessCount (trans : String → Nat → Option BarkResp) (url : String)
    (batches : List String) : Nat :=
  (barkLoop trans url (reversedBatches batches) 0).1

/-- `send_to_bark` (lines 1123-1265): fail fast when no device key can be
extracted from the URL path (before the split function is ever called),
otherwise reverse the batches, attempt all of them, and report success
when every batch succeeded or at least one did (lines 1256-1265). -/
def send_to_bark (scheme netloc path : String)
    (split : Except String (List String))
    (trans : String → Nat → Option BarkResp) : Except String (Bool × Nat) :=
  if !barkDeviceKeyUsable path then .ok (false, 0)
  else
    match split with
    | .error e => .error e
    | .ok batches =>
      let url := barkApiEndpoint scheme netloc
      let total_batches := batches.length
      let run := barkLoop trans url (reversedBatches batches) 0
      .ok (if run.1 = total_batches then true
           else if 0 < run.1 then true
           else false, run.2)

/-! ## Feishu card payload (`build_feishu_card_payload`, lines 38-190) -/

/-- One entry of `podcast_data`: `{audio_url, summary, article_count}`. -/
structure PodcastEntry where
  audio_url : String
  summary : String
  article_count : Nat
deriving Repr, DecidableEq

/-- One element of the Feishu interactive card. -/
inductive CardElement where
  | markdown (content : String)
  | hr
  | action (buttons : List (String × String))
  | note (content : String)
deriving Repr, DecidableEq

/-- Trim ASCII/Unicode whitespace from both ends; Python's `str.strip()`
(lines 42, 84-85). -/
def trimString (s : String) : String :=
  String.mk
    (((s.data.dropWhile Char.isWhitespace).reverse.dropWhile
      Char.isWhitespace).reverse)

/-- `_truncate_text` (lines 38-45): empty in, empty out; strip; empty when
the cap is zero; otherwise cut at `max_chars` characters and append an
ellipsis. -/
def _truncate_text (text : String) (max_chars : Nat) : String :=
  if text = "" then ""
  else
    let text := trimString text
    if max_chars = 0 then ""
    else if text.length ≤ max_chars then text
    else text.take max_chars ++ "…"

/-- The filtering of `podcast_data` entries (lines 79-90): drop empty
keywords; strip `audio_url` and `summary`; drop entries with neither. -/
def usablePodcastItems (podcast_data : List (String × PodcastEntry)) :
    List (String × String × String × Nat) :=
  podcast_data.filterMap (fun p =>
    if p.1 = "" then none
    else
      let audio_url := trimString p.2.audio_url
      let summary := trimString p.2.summary
      if audio_url = "" && summary = "" then none
      else some (p.1, audio_url, summary, p.2.article_count))

/-- The podcast listen buttons (lines 107-127): one button per item with a
non-empty audio link. -/
def podcastButtons (items : List (String × String × String × Nat)) :
    List (String × String) :=
  items.filterMap (fun it =>
    let keyword := it.1
    let audio_url := it.2.1
    if audio_url = "" then none
    else some (s!"收听「{keyword}」播客", audio_url))

/-- The button part of the card (lines 99-155): section title, the buttons
grouped three per row, a placeholder note when no button is usable, and
the validity note. -/
def buttonSection (items : List (String × String × String × Nat)) :
    List CardElement :=
  let buttons := podcastButtons items
  [CardElement.markdown "🎙️ **热点播客**（点按钮收听）"] ++
    (List.toChunks 3 buttons).map CardElement.action ++
    (if buttons = [] then
      [CardElement.note "⚠️ 本次未生成可收听的播客链接（请检查播客配置/密钥/上传存储）"]
    else []) ++
    [CardElement.note "💡 音频链接通常24小时内有效"]

/-- The AI summary part of the card (lines 157-175). -/
def summarySection (items : List (String × String × String × Nat))
    (max_summary_chars_per_keyword : Nat) : List CardElement :=
  [CardElement.hr, CardElement.markdown "📝 **AI总结文稿**（可直接阅读/转发）"] ++
    items.map (fun it =>
      let keyword := it.1
      let audio_url := it.2.1
      let summary_preview := _truncate_text it.2.2.1 max_summary_chars_per_keyword
      let article_count := it.2.2.2
      let header :=
        s!"**📌 {keyword}**" ++
          (if article_count ≠ 0 then s!"（{article_count} 篇）" else "")
      let link_line :=
        if audio_url ≠ "" then "\n\n[🎧 语音播客链接](" ++ audio_url ++ ")"
        else ""
      CardElement.markdown (header ++ "\n\n" ++ summary_preview ++ link_line))

/-- `build_feishu_card_payload` (lines 48-190), reduced to its card
element list: the batch text, then — only when podcast sections are
requested and at least one podcast entry is usable — a separator followed
by the button and/or summary sections. -/
def build_feishu_card_payload (batch_content : String)
    (podcast_data : List (String × PodcastEntry))
    (include_podcast_sections include_podcast_summaries
      include_podcast_buttons : Bool)
    (max_summary_chars_per_keyword max_keywords_in_card : Nat) :
    List CardElement :=
  let elements := [CardElement.markdown batch_content]
  if include_podcast_sections && !(podcast_data = []) then
    let items := usablePodcastItems podcast_data
    if items = [] then elements
    else
      let items :=
        items.take
          (if 0 < max_keywords_in_card then max_keywords_in_card
           else items.length)
      elements ++ [CardElement.hr] ++
        (if include_podcast_buttons then buttonSection items else []) ++
        (if include_podcast_summaries then
          summarySection items max_summary_chars_per_keyword
        else [])
  else elements

/-- The podcast guard of `send_to_feishu` (lines 290-297):
`is_first_batch or (is_last_batch and len(batches) == 1)` for the batch
with 1-based index `i` out of `n`. -/
def feishuIncludePodcast (i n : Nat) : Bool :=
  (i == 1) || ((i == n) && (n == 1))

/-- The card payloads `send_to_feishu` builds, one per batch
(lines 276-304): podcast sections only on the batch the guard selects,
buttons on, summaries off, caps 600/10. -/
def feishuPayloads (batches : List String)
    (podcast_data : List (String × PodcastEntry)) : List (List CardElement) :=
  batches.enum.map (fun p =>
    build_feishu_card_payload p.2 podcast_data
      (feishuIncludePodcast (p.1 + 1) batches.length) false true 600 10)

/-! ## Byte-size lemmas -/

theorem utf8ByteSize_mk (l : List Char) :
    (String.mk l).utf8ByteSize = utf8LenChars l := by
  induction l with
  | nil => rfl
  | cons c cs ih =>
    show String.utf8ByteSize.go cs + c.utf8Size = _
    rw [utf8LenChars]
    exact congrArg (· + c.utf8Size) ih

theorem utf8ByteSize_eq_data (s : String) :
    s.utf8ByteSize = utf8LenChars s.data := by
  cases s with
  | mk l => exact utf8ByteSize_mk l

theorem utf8LenChars_append (l₁ l₂ : List Char) :
    utf8LenChars (l₁ ++ l₂) = utf8LenChars l₁ + utf8LenChars l₂ := by
  induction l₁ with
  | nil => simp [utf8LenChars]
  | cons c cs ih => simp [utf8LenChars, ih]; omega

theorem utf8ByteSize_append (a b : String) :
    (a ++ b).utf8ByteSize = a.utf8ByteSize + b.utf8ByteSize := by
  rw [utf8ByteSize_eq_data, String.data_append, utf8LenChars_append,
    utf8ByteSize_eq_data, utf8ByteSize_eq_data]

theorem utf8LenChars_filter_le (p : Char → Bool) (l : List Char) :
    utf8LenChars (l.filter p) ≤ utf8LenChars l := by
  induction l with
  | nil => simp
  | cons c cs ih =>
    by_cases h : p c
    · simp [List.filter, h, utf8LenChars]; omega
    · simp [List.filter, h, utf8LenChars]; omega

theorem strip_markdown_le (s : String) :
    (strip_markdown s).utf8ByteSize ≤ s.utf8ByteSize := by
  rw [strip_markdown, utf8ByteSize_mk, utf8ByteSize_eq_data]
  exact utf8LenChars_filter_le _ _

theorem mrkdwnChars_le (l : List Char) :
    utf8LenChars (mrkdwnChars l) ≤ utf8LenChars l := by
  induction l using mrkdwnChars.induct with
  | case1 => simp [mrkdwnChars]
  | case2 c => simp [mrkdwnChars]
  | case3 c₁ c₂ rest h ih =>
    obtain ⟨h₁, h₂⟩ := h
    have hstar : ('*' : Char).utf8Size = 1 := rfl
    subst h₁ h₂
    simp [mrkdwnChars, utf8LenChars, hstar]
    omega
  | case4 c₁ c₂ rest h ih =>
    have ih' := ih
    simp only [utf8LenChars] at ih'
    simp only [mrkdwnChars, if_neg h, utf8LenChars]
    omega

theorem convert_markdown_to_mrkdwn_le (s : String) :
    (convert_markdown_to_mrkdwn s).utf8ByteSize ≤ s.utf8ByteSize := by
  rw [convert_markdown_to_mrkdwn, utf8ByteSize_mk, utf8ByteSize_eq_data]
  exact mrkdwnChars_le _

/-! ## Splitter and injector lemmas -/

theorem join_cons (s : String) (l : List String) :
    String.join (s :: l) = s ++ String.join l := by
  apply String.ext
  simp

theorem packItems_join (maxB : Nat) (items : List String) (cur : String) :
    String.join (packItems maxB items cur) = cur ++ String.join items := by
  induction items generalizing cur with
  | nil =>
    by_cases h : cur = ""
    · subst h
      simp [packItems, String.join]
    · simp [packItems, h, join_cons, String.join]
  | cons it rest ih =>
    by_cases hc : cur = ""
    · subst hc
      rw [packItems, if_pos rfl, ih, join_cons]
      simp
    · rw [packItems, if_neg hc]
      by_cases hfit : (cur ++ it).utf8ByteSize ≤ maxB
      · rw [if_pos hfit, ih, join_cons, String.append_assoc]
      · rw [if_neg hfit, join_cons, ih, join_cons]

theorem add_batch_headers_ok_le (chunks : List String) (fmt : String)
    (batch_size : Nat) (batches : List String)
    (h : add_batch_headers chunks fmt batch_size = .ok batches) :
    ∀ b ∈ batches, b.utf8ByteSize ≤ batch_size := by
  dsimp only [add_batch_headers] at h
  split at h
  · next hall =>
    cases h
    intro b hb
    have := List.all_eq_true.mp hall b hb
    simpa using this
  · exact absurd h (by simp)

/-- C1 (claim): every batch the pipeline produces, and every payload text
each channel derives from it, fits the channel budget. -/
theorem C1_budget_invariant (items : List String) (format_type : String)
    (batch_size : Nat) (batches : List String) (b : String)
    (hok : batchPipeline items format_type batch_size = .ok batches)
    (hb : b ∈ batches) :
    b.utf8ByteSize ≤ batch_size ∧
    (convert_markdown_to_mrkdwn b).utf8ByteSize ≤ batch_size ∧
    (weworkPayloadText "text" b).utf8ByteSize ≤ batch_size := by
  dsimp only [batchPipeline] at hok
  split at hok
  · exact absurd hok (by simp)
  · next chunks hsplit =>
    have hle := add_batch_headers_ok_le chunks format_type batch_size batches hok b hb
    refine ⟨hle, le_trans (convert_markdown_to_mrkdwn_le b) hle, ?_⟩
    have htext : weworkPayloadText "text" b = strip_markdown b := by
      rw [weworkPayloadText, if_pos (by decide)]
    rw [htext]
    exact le_trans (strip_markdown_le b) hle

/-- C9 (claim): concatenating the splitter's chunks in order reconstructs
the original rendered report content. -/
theorem C9_round_trip (items : List String) (maxBytes : Int)
    (chunks : List String)
    (h : split_content items maxBytes = .ok chunks) :
    String.join chunks = String.join items := by
  dsimp only [split_content] at h
  split at h
  · exact absurd h (by simp)
  · cases h
    rw [packItems_join]
    simp

/-! ## Strict-order loop lemmas -/

theorem strictLoop_fail {ρ : Type} (okResp : ρ → Bool)
    (trans : String → Nat → Option ρ) (url : String) (bs : List String)
    (c i : Nat) (hi : i < bs.length)
    (hprev : ∀ j, j < i → callOk okResp (trans url (c + j)) = true)
    (hfail : callOk okResp (trans url (c + i)) = false) :
    strictLoop okResp trans url bs c = (false, c + i + 1) := by
  induction bs generalizing c i with
  | nil => simp at hi
  | cons b rest ih =>
    cases i with
    | zero =>
      rw [Nat.add_zero] at hfail
      cases htr : trans url c with
      | none => simp only [strictLoop, htr]
      | some r =>
        rw [htr] at hfail
        simp only [callOk] at hfail
        simp only [strictLoop, htr, hfail, Bool.false_eq_true, if_false]
    | succ i' =>
      have h0 := hprev 0 (Nat.succ_pos i')
      rw [Nat.add_zero] at h0
      cases htr : trans url c with
      | none => rw [htr] at h0; simp [callOk] at h0
      | some r =>
        rw [htr] at h0
        simp only [callOk] at h0
        have hlen : i' < rest.length := by
          have := hi; simp only [List.length_cons] at this; omega
        have hprev' : ∀ j, j < i' → callOk okResp (trans url (c + 1 + j)) = true := by
          intro j hj
          have h := hprev (j + 1) (by omega)
          have e : c + (j + 1) = c + 1 + j := by omega
          rwa [e] at h
        have hfail' : callOk okResp (trans url (c + 1 + i')) = false := by
          have e : c + (i' + 1) = c + 1 + i' := by omega
          rwa [e] at hfail
        have hrec := ih (c + 1) i' hlen hprev' hfail'
        simp only [strictLoop, htr, h0, if_true, hrec]
        have e : c + 1 + i' + 1 = c + (i' + 1) + 1 := by omega
        rw [e]

theorem strictLoop_fail_zero {ρ : Type} (okResp : ρ → Bool)
    (trans : String → Nat → Option ρ) (url : String) (bs : List String)
    (i : Nat) (hi : i < bs.length)
    (hprev : ∀ j, j < i → callOk okResp (trans url j) = true)
    (hfail : callOk okResp (trans url i) = false) :
    strictLoop okResp trans url bs 0 = (false, i + 1) := by
  have h := strictLoop_fail okResp trans url bs 0 i hi
    (fun j hj => by simpa using hprev j hj) (by simpa using hfail)
  simpa using h

/-- C2: for every strict-order sender, a failing batch `i` (non-200
status, platform error in the body, or a transport exception) stops the
loop: exactly `i` transport calls were made (so no later batch is ever
sent) and the sender returns `false`.  Batch numbers are 1-based in the
claim; here `i` is the 0-based index of the failing call, so the sender
stops after `i + 1` calls. -/
theorem C2_strict_order_short_circuit :
    (∀ (url : String) (trans : String → Nat → Option FeishuResp)
       (batches : List String) (i : Nat), i < batches.length →
       (∀ j, j < i → callOk feishuBatchOk (trans url j) = true) →
       callOk feishuBatchOk (trans url i) = false →
       send_to_feishu url (.ok batches) trans = .ok (false, i + 1)) ∧
    (∀ (url : String) (trans : String → Nat → Option DingtalkResp)
       (batches : List String) (i : Nat), i < batches.length →
       (∀ j, j < i → callOk dingtalkBatchOk (trans url j) = true) →
       callOk dingtalkBatchOk (trans url i) = false →
       send_to_dingtalk url (.ok batches) trans = .ok (false, i + 1)) ∧
    (∀ (url msg_type : String) (trans : String → Nat → Option WeworkResp)
       (batches : List String) (i : Nat), i < batches.length →
       (∀ j, j < i → callOk weworkBatchOk (trans url j) = true) →
       callOk weworkBatchOk (trans url i) = false →
       send_to_wework url msg_type (.ok batches) trans = .ok (false, i + 1)) ∧
    (∀ (bot_token : String) (trans : String → Nat → Option TelegramResp)
       (batches : List String) (i : Nat), i < batches.length →
       (∀ j, j < i → callOk telegramBatchOk (trans (telegramUrl bot_token) j) = true) →
       callOk telegramBatchOk (trans (telegramUrl bot_token) i) = false →
       send_to_telegram bot_token (.ok batches) trans = .ok (false, i + 1)) ∧
    (∀ (url : String) (trans : String → Nat → Option SlackResp)
       (batches : List String) (i : Nat), i < batches.length →
       (∀ j, j < i → callOk slackBatchOk (trans url j) = true) →
       callOk slackBatchOk (trans url i) = false →
       send_to_slack url (.ok batches) trans = .ok (false, i + 1)) := by
  refine ⟨?_, ?_, ?_, ?_, ?_⟩
  · intro url trans batches i hi hprev hfail
    exact congrArg Except.ok (strictLoop_fail_zero feishuBatchOk trans url batches i hi hprev hfail)
  · intro url trans batches i hi hprev hfail
    exact congrArg Except.ok (strictLoop_fail_zero dingtalkBatchOk trans url batches i hi hprev hfail)
  · intro url msg_type trans batches i hi hprev hfail
    exact congrArg Except.ok (strictLoop_fail_zero weworkBatchOk trans url batches i hi hprev hfail)
  · intro bot_token trans batches i hi hprev hfail
    exact congrArg Except.ok
      (strictLoop_fail_zero telegramBatchOk trans (telegramUrl bot_token) batches i hi hprev hfail)
  · intro url trans batches i hi hprev hfail
    exact congrArg Except.ok (strictLoop_fail_zero slackBatchOk trans url batches i hi hprev hfail)

/-- C2 witness: in a 3-batch run where batch 2 fails, each strict-order
sender stops after 2 transport calls (batch 3 never sent) and returns
`false`. -/
theorem C2_strict_order_short_circuit_witness :
    send_to_feishu "https://example.com/hook" (.ok ["b1", "b2", "b3"])
      (fun _ k => if k == 0 then some ⟨200, some 0, none⟩ else some ⟨200, some 1, none⟩)
      = .ok (false, 2) ∧
    send_to_dingtalk "https://example.com/hook" (.ok ["b1", "b2", "b3"])
      (fun _ k => if k == 0 then some ⟨200, some 0⟩ else some ⟨200, some 310000⟩)
      = .ok (false, 2) ∧
    send_to_wework "https://example.com/hook" "markdown" (.ok ["b1", "b2", "b3"])
      (fun _ k => if k == 0 then some ⟨200, some 0⟩ else some ⟨200, some 93000⟩)
      = .ok (false, 2) ∧
    send_to_telegram "tok" (.ok ["b1", "b2", "b3"])
      (fun _ k => if k == 0 then some ⟨200, true⟩ else some ⟨200, false⟩)
      = .ok (false, 2) ∧
    send_to_slack "https://example.com/hook" (.ok ["b1", "b2", "b3"])
      (fun _ k => if k == 0 then some ⟨200, "ok"⟩ else some ⟨500, "error"⟩)
      = .ok (false, 2) := by
  refine ⟨?_, ?_, ?_, ?_, ?_⟩
  · exact C2_strict_order_short_circuit.1 _ _ _ 1 (by decide) (by decide) (by decide)
  · exact C2_strict_order_short_circuit.2.1 _ _ _ 1 (by decide) (by decide) (by decide)
  · exact C2_strict_order_short_circuit.2.2.1 _ _ _ _ 1 (by decide) (by decide) (by decide)
  · exact C2_strict_order_short_circuit.2.2.2.1 _ _ _ 1 (by decide) (by decide) (by decide)
  · exact C2_strict_order_short_circuit.2.2.2.2 _ _ _ 1 (by decide) (by decide) (by decide)

/-! ## Error containment (C5) -/

/-- C5 counterexample: an exception raised by the injected
`split_content_func` is not caught by `send_to_feishu` (nothing wraps the
split call, lines 262-271), so it escapes to the caller instead of being
resolved to a boolean verdict. -/
theorem C5_counterexample :
    send_to_feishu "https://example.com/hook"
        (.error "split_content_func raised")
        (fun _ _ => some ⟨200, some 0, some 0⟩)
      = .error "split_content_func raised" ∧
    ¬ ∃ p, send_to_feishu "https://example.com/hook"
        (.error "split_content_func raised")
        (fun _ _ => some ⟨200, some 0, some 0⟩) = .ok p := by
  refine ⟨rfl, ?_⟩
  rintro ⟨p, hp⟩
  exact Except.noConfusion hp

/-- C5 (amended): once the split stage has produced its batches, every
sender resolves every transport behaviour — exceptions included — to a
boolean verdict; only a raising split function escapes. -/
theorem C5_transport_errors_contained :
    (∀ (url : String) (bs : List String)
       (trans : String → Nat → Option FeishuResp),
       ∃ p, send_to_feishu url (.ok bs) trans = .ok p) ∧
    (∀ (url : String) (bs : List String)
       (trans : String → Nat → Option DingtalkResp),
       ∃ p, send_to_dingtalk url (.ok bs) trans = .ok p) ∧
    (∀ (url msg_type : String) (bs : List String)
       (trans : String → Nat → Option WeworkResp),
       ∃ p, send_to_wework url msg_type (.ok bs) trans = .ok p) ∧
    (∀ (bot_token : String) (bs : List String)
       (trans : String → Nat → Option TelegramResp),
       ∃ p, send_to_telegram bot_token (.ok bs) trans = .ok p) ∧
    (∀ (url : String) (bs : List String)
       (trans : String → Nat → Option SlackResp),
       ∃ p, send_to_slack url (.ok bs) trans = .ok p) ∧
    (∀ (server_url topic : String) (bs : List String)
       (trans : String → Nat → Option NtfyResp),
       ∃ p, send_to_ntfy server_url topic (.ok bs) trans = .ok p) ∧
    (∀ (scheme netloc path : String) (bs : List String)
       (trans : String → Nat → Option BarkResp),
       ∃ p, send_to_bark scheme netloc path (.ok bs) trans = .ok p) := by
  refine ⟨fun url bs trans => ⟨_, rfl⟩, fun url bs trans => ⟨_, rfl⟩,
    fun url mt bs trans => ⟨_, rfl⟩, fun tok bs trans => ⟨_, rfl⟩,
    fun url bs trans => ⟨_, rfl⟩, fun s t bs trans => ⟨_, rfl⟩,
    fun scheme netloc path bs trans => ?_⟩
  cases h : barkDeviceKeyUsable path
  · exact ⟨(false, 0), by simp [send_to_bark, h]⟩
  · refine ⟨((if (barkLoop trans (barkApiEndpoint scheme netloc)
        (reversedBatches bs) 0).1 = bs.length then true
      else if 0 < (barkLoop trans (barkApiEndpoint scheme netloc)
        (reversedBatches bs) 0).1 then true
      else false),
      (barkLoop trans (barkApiEndpoint scheme netloc)
        (reversedBatches bs) 0).2), ?_⟩
    simp only [send_to_bark, h, Bool.not_true, Bool.false_eq_true, if_false]

/-! ## Credential validation (C7) -/

/-- C7 counterexample: `send_to_feishu` performs no credential check — with
an empty webhook URL it still invokes the transport once per batch (the
`requests.post` call raises and is interpreted as a batch failure), so a
dispatch with the credential absent makes one transport invocation, not
zero. -/
theorem C7_counterexample :
    send_to_feishu "" (.ok ["batch1"]) (fun _ _ => none) = .ok (false, 1) := rfl

/-- C7 (amended): only the Bark sender validates its credential: when no
usable device key can be extracted from the URL path it returns `false`
after zero transport invocations and without ever consulting the split
result. -/
theorem C7_bark_fail_fast (scheme netloc path : String)
    (split : Except String (List String))
    (trans : String → Nat → Option BarkResp)
    (h : barkDeviceKeyUsable path = false) :
    send_to_bark scheme netloc path split trans = .ok (false, 0) := by
  simp [send_to_bark, h]

/-- C7 witness: a Bark URL whose path is a bare slash yields no device
key; the sender reports failure with zero transport calls even though the
split result is an error value (it is never inspected). -/
theorem C7_bark_fail_fast_witness :
    send_to_bark "https" "api.day.app" "/" (.error "boom")
      (fun _ _ => some ⟨200, some 200⟩) = .ok (false, 0) :=
  C7_bark_fail_fast "https" "api.day.app" "/" (.error "boom")
    (fun _ _ => some ⟨200, some 200⟩) (by decide)

/-! ## Empty report (C8) -/

/-- C8: a report that splits into zero batches produces zero transport
calls and trivial success (`true`) in every sender; for Bark this needs
the device key to be extractable, since that check precedes the split. -/
theorem C8_empty_report_trivial_success :
    (∀ (url : String) (trans : String → Nat → Option FeishuResp),
       send_to_feishu url (.ok []) trans = .ok (true, 0)) ∧
    (∀ (url : String) (trans : String → Nat → Option DingtalkResp),
       send_to_dingtalk url (.ok []) trans = .ok (true, 0)) ∧
    (∀ (url msg_type : String) (trans : String → Nat → Option WeworkResp),
       send_to_wework url msg_type (.ok []) trans = .ok (true, 0)) ∧
    (∀ (bot_token : String) (trans : String → Nat → Option TelegramResp),
       send_to_telegram bot_token (.ok []) trans = .ok (true, 0)) ∧
    (∀ (url : String) (trans : String → Nat → Option SlackResp),
       send_to_slack url (.ok []) trans = .ok (true, 0)) ∧
    (∀ (server_url topic : String) (trans : String → Nat → Option NtfyResp),
       send_to_ntfy server_url topic (.ok []) trans = .ok (true, 0)) ∧
    (∀ (scheme netloc path : String) (trans : String → Nat → Option BarkResp),
       barkDeviceKeyUsable path = true →
       send_to_bark scheme netloc path (.ok []) trans = .ok (true, 0)) := by
  refine ⟨fun url trans => rfl, fun url trans => rfl, fun url mt trans => rfl,
    fun tok trans => rfl, fun url trans => rfl, fun s t trans => rfl,
    fun scheme netloc path trans h => ?_⟩
  simp only [send_to_bark, h, Bool.not_true, Bool.false_eq_true, if_false]
  rfl

/-- C8 witness: concrete empty dispatches, including a Bark URL with a
usable device key. -/
theorem C8_empty_report_trivial_success_witness :
    send_to_bark "https" "api.day.app" "/devkey" (.ok [])
      (fun _ _ => none) = .ok (true, 0) :=
  C8_empty_report_trivial_success.2.2.2.2.2.2 "https" "api.day.app" "/devkey"
    (fun _ _ => none) (by decide)

/-- C1 witness: a concrete two-item report through the pipeline at a
30-byte budget. -/
theorem C1_budget_invariant_witness :
    ("(1/1) hello world").utf8ByteSize ≤ 30 ∧
    (convert_markdown_to_mrkdwn "(1/1) hello world").utf8ByteSize ≤ 30 ∧
    (weworkPayloadText "text" "(1/1) hello world").utf8ByteSize ≤ 30 :=
  C1_budget_invariant ["hello", " world"] "slack" 30 ["(1/1) hello world"]
    "(1/1) hello world" (by rfl) (by simp)

/-- C9 witness: two items packed into one chunk concatenate back to the
original content. -/
theorem C9_round_trip_witness :
    String.join ["abcd"] = String.join ["ab", "cd"] :=
  C9_round_trip ["ab", "cd"] 10 ["abcd"] (by rfl)

/-! ## Best-effort loop lemmas (C3, C4, C6) -/

theorem ntfySendBatch_calls (trans : String → Nat → Option NtfyResp)
    (url : String) (c : Nat) :
    (ntfySendBatch trans url c).2 = c + 1 ∨ (ntfySendBatch trans url c).2 = c + 2 := by
  unfold ntfySendBatch
  cases htr : trans url c with
  | none => exact .inl rfl
  | some r =>
    dsimp only
    by_cases h200 : r.status = 200
    · rw [if_pos h200]; exact .inl rfl
    · rw [if_neg h200]
      by_cases h429 : r.status = 429
      · rw [if_pos h429]
        cases htr2 : trans url (c + 1) <;> exact .inr rfl
      · rw [if_neg h429]; exact .inl rfl

theorem ntfyOutcomes_length (trans : String → Nat → Option NtfyResp)
    (url : String) (bs : List String) (c : Nat) :
    (ntfyOutcomes trans url bs c).length = bs.length := by
  induction bs generalizing c with
  | nil => rfl
  | cons b rest ih => simp [ntfyOutcomes, ih]

theorem ntfyLoop_eq_outcomes (trans : String → Nat → Option NtfyResp)
    (url : String) (bs : List String) (c : Nat) :
    (ntfyLoop trans url bs c).1 = (ntfyOutcomes trans url bs c).count true := by
  induction bs generalizing c with
  | nil => rfl
  | cons b rest ih =>
    show (if (ntfySendBatch trans url c).1 then 1 else 0)
        + (ntfyLoop trans url rest (ntfySendBatch trans url c).2).1 = _
    rw [ih]
    show _ = ((ntfySendBatch trans url c).1 ::
      ntfyOutcomes trans url rest (ntfySendBatch trans url c).2).count true
    cases h : (ntfySendBatch trans url c).1 <;>
      simp [List.count_cons, h] <;> omega

theorem ntfyLoop_calls_ge (trans : String → Nat → Option NtfyResp)
    (url : String) (bs : List String) (c : Nat) :
    c + bs.length ≤ (ntfyLoop trans url bs c).2 := by
  induction bs generalizing c with
  | nil => simp [ntfyLoop]
  | cons b rest ih =>
    show c + (b :: rest).length ≤ (ntfyLoop trans url rest (ntfySendBatch trans url c).2).2
    rcases ntfySendBatch_calls trans url c with h | h
    · rw [h]
      have hrec := ih (c + 1)
      simp only [List.length_cons]
      omega
    · rw [h]
      have hrec := ih (c + 2)
      simp only [List.length_cons]
      omega

theorem ntfyLoop_le_length (trans : String → Nat → Option NtfyResp)
    (url : String) (bs : List String) (c : Nat) :
    (ntfyLoop trans url bs c).1 ≤ bs.length := by
  induction bs generalizing c with
  | nil => simp [ntfyLoop]
  | cons b rest ih =>
    show (if (ntfySendBatch trans url c).1 then 1 else 0)
        + (ntfyLoop trans url rest (ntfySendBatch trans url c).2).1 ≤ _
    have hrec := ih (ntfySendBatch trans url c).2
    simp only [List.length_cons]
    cases h : (ntfySendBatch trans url c).1
    · rw [if_neg (by simp [h])]
      omega
    · rw [if_pos (by simp [h])]
      omega

theorem barkOutcomes_length (trans : String → Nat → Option BarkResp)
    (url : String) (bs : List String) (c : Nat) :
    (barkOutcomes trans url bs c).length = bs.length := by
  induction bs generalizing c with
  | nil => rfl
  | cons b rest ih => simp [barkOutcomes, ih]

theorem barkLoop_eq_outcomes (trans : String → Nat → Option BarkResp)
    (url : String) (bs : List String) (c : Nat) :
    (barkLoop trans url bs c).1 = (barkOutcomes trans url bs c).count true := by
  induction bs generalizing c with
  | nil => rfl
  | cons b rest ih =>
    show (if callOk barkBatchOk (trans url c) then 1 else 0)
        + (barkLoop trans url rest (c + 1)).1 = _
    rw [ih]
    show _ = (callOk barkBatchOk (trans url c) ::
      barkOutcomes trans url rest (c + 1)).count true
    cases h : callOk barkBatchOk (trans url c) <;>
      simp [List.count_cons, h] <;> omega

theorem barkLoop_calls (trans : String → Nat → Option BarkResp)
    (url : String) (bs : List String) (c : Nat) :
    (barkLoop trans url bs c).2 = c + bs.length := by
  induction bs generalizing c with
  | nil => rfl
  | cons b rest ih =>
    show (barkLoop trans url rest (c + 1)).2 = _
    rw [ih]
    simp only [List.length_cons]
    omega

/-- The overall verdict reduction (`if success_count == total_batches …
elif success_count > 0 …`, lines 1111-1120 and 1256-1265): for a non-empty
batch list it is exactly "at least one batch succeeded". -/
theorem bestEffortVerdict_eq (s n : Nat) (hn : n ≠ 0) :
    (if s = n then true else if 0 < s then true else false) = decide (0 < s) := by
  by_cases h1 : s = n
  · subst h1; simp; omega
  · by_cases h2 : 0 < s <;> simp [h1, h2]

/-- C3: for the best-effort senders (ntfy, Bark) on a non-empty batch
list, every batch gets an attempt (one outcome per batch, the transport
called at least once per batch), the success counter equals the number of
batches whose send or permitted retry succeeded, and the verdict is `true`
exactly when at least one batch succeeded. -/
theorem C3_best_effort_partial_success (server_url topic : String)
    (transN : String → Nat → Option NtfyResp)
    (scheme netloc path : String) (transB : String → Nat → Option BarkResp)
    (bs : List String) (hne : bs ≠ [])
    (hpath : barkDeviceKeyUsable path = true) :
    (ntfyOutcomes transN (ntfyUrl server_url topic) (reversedBatches bs) 0).length
      = bs.length ∧
    ntfySuccessCount transN (ntfyUrl server_url topic) bs
      = (ntfyOutcomes transN (ntfyUrl server_url topic)
          (reversedBatches bs) 0).count true ∧
    bs.length ≤ (ntfyLoop transN (ntfyUrl server_url topic)
      (reversedBatches bs) 0).2 ∧
    send_to_ntfy server_url topic (.ok bs) transN
      = .ok (decide (0 < ntfySuccessCount transN (ntfyUrl server_url topic) bs),
          (ntfyLoop transN (ntfyUrl server_url topic) (reversedBatches bs) 0).2) ∧
    (barkOutcomes transB (barkApiEndpoint scheme netloc)
      (reversedBatches bs) 0).length = bs.length ∧
    barkSuccessCount transB (barkApiEndpoint scheme netloc) bs
      = (barkOutcomes transB (barkApiEndpoint scheme netloc)
          (reversedBatches bs) 0).count true ∧
    send_to_bark scheme netloc path (.ok bs) transB
      = .ok (decide (0 < barkSuccessCount transB (barkApiEndpoint scheme netloc) bs),
          bs.length) := by
  have hlen : (reversedBatches bs).length = bs.length := by
    simp [reversedBatches]
  have hn : bs.length ≠ 0 := by
    cases bs
    · exact absurd rfl hne
    · simp
  refine ⟨by rw [ntfyOutcomes_length, hlen], ?_, ?_, ?_, ?_, ?_, ?_⟩
  · exact ntfyLoop_eq_outcomes transN (ntfyUrl server_url topic) (reversedBatches bs) 0
  · have := ntfyLoop_calls_ge transN (ntfyUrl server_url topic) (reversedBatches bs) 0
    omega
  · show Except.ok _ = _
    rw [bestEffortVerdict_eq _ _ hn]
    rfl
  · rw [barkOutcomes_length, hlen]
  · exact barkLoop_eq_outcomes transB (barkApiEndpoint scheme netloc) (reversedBatches bs) 0
  · simp only [send_to_bark, hpath, Bool.not_true, Bool.false_eq_true, if_false]
    rw [bestEffortVerdict_eq _ _ hn, barkLoop_calls]
    have h0 : 0 + (reversedBatches bs).length = bs.length := by rw [hlen]; omega
    rw [h0]
    rfl

/-- C3 witness: three batches of which two succeed — both best-effort
senders report `true` with a success count of 2 (and one call per batch
here, three calls in total). -/
theorem C3_best_effort_partial_success_witness :
    send_to_ntfy "ntfy.sh" "t" (.ok ["a", "b", "c"])
      (fun _ k => if k == 0 then some ⟨500⟩ else some ⟨200⟩)
      = .ok (true, 3) ∧
    ntfySuccessCount (fun _ k => if k == 0 then some ⟨500⟩ else some ⟨200⟩)
      (ntfyUrl "ntfy.sh" "t") ["a", "b", "c"] = 2 ∧
    send_to_bark "https" "api.day.app" "/dk" (.ok ["a", "b", "c"])
      (fun _ k => if k == 2 then some ⟨500, none⟩ else some ⟨200, some 200⟩)
      = .ok (true, 3) ∧
    barkSuccessCount (fun _ k => if k == 2 then some ⟨500, none⟩ else some ⟨200, some 200⟩)
      (barkApiEndpoint "https" "api.day.app") ["a", "b", "c"] = 2 := by
  have h := C3_best_effort_partial_success "ntfy.sh" "t"
    (fun _ k => if k == 0 then some ⟨500⟩ else some ⟨200⟩)
    "https" "api.day.app" "/dk"
    (fun _ k => if k == 2 then some ⟨500, none⟩ else some ⟨200, some 200⟩)
    ["a", "b", "c"] (by decide) (by decide)
  obtain ⟨-, -, -, h4, -, -, h7⟩ := h
  refine ⟨?_, by rfl, ?_, by rfl⟩
  · rw [h4]; rfl
  · rw [h7]; rfl

/-! ## Reverse-for-display order and logical numbering (C4) -/

/-- C4: for a reverse-for-display channel with `n` batches, the batch at
physical send position `k` (0-based; `idx = k + 1` in the source) is the
original batch at 1-based position `n - k` — so the physical order is
`n, n-1, …, 1` — while the logical number reported with it (and put into
the ntfy Title marker) is exactly that original position
`n - k = n - idx + 1`. -/
theorem C4_reverse_order_logical_numbering (bs : List String)
    (report_type_en : String) (k : Nat) (hk : k < bs.length) :
    (sendSequence bs).length = bs.length ∧
    (sendSequence bs)[k]?
      = (bs[bs.length - 1 - k]?).map (fun b => (bs.length - k, b)) ∧
    ((sendSequence bs)[k]?).map Prod.fst = some (bs.length - k) ∧
    ((sendSequence bs)[k]?).map Prod.snd = bs[bs.length - 1 - k]? ∧
    (ntfyRequests report_type_en bs)[k]?
      = (bs[bs.length - 1 - k]?).map
          (fun b => (ntfyTitle report_type_en (bs.length - k) bs.length, b)) := by
  have hlen : (sendSequence bs).length = bs.length := by
    simp [sendSequence, reversedBatches]
  have hidx : bs.length - 1 - k < bs.length := by omega
  have hmain : (sendSequence bs)[k]?
      = (bs[bs.length - 1 - k]?).map (fun b => (bs.length - k, b)) := by
    simp only [sendSequence, reversedBatches, List.getElem?_map, List.getElem?_enum]
    rw [List.getElem?_reverse (by simpa using hk)]
    cases hb : bs[bs.length - 1 - k]? with
    | none => rfl
    | some b =>
      show some (actualBatchNum bs.length (k + 1), b) = some (bs.length - k, b)
      have : actualBatchNum bs.length (k + 1) = bs.length - k := by
        simp only [actualBatchNum]; omega
      rw [this]
  have hsome : ∃ b, bs[bs.length - 1 - k]? = some b := by
    rw [List.getElem?_eq_getElem hidx]
    exact ⟨_, rfl⟩
  obtain ⟨b, hb⟩ := hsome
  refine ⟨hlen, hmain, ?_, ?_, ?_⟩
  · rw [hmain, hb]; rfl
  · rw [hmain, hb]; rfl
  · simp only [ntfyRequests, List.getElem?_map, hmain, hb]
    rfl

/-- C4 witness: with batches `["a", "b", "c"]`, physical position 0 sends
the original batch 3 (content `"c"`) and reports logical number 3 in the
Title marker. -/
theorem C4_reverse_order_logical_numbering_witness :
    (sendSequence ["a", "b", "c"]).length = 3 ∧
    (sendSequence ["a", "b", "c"])[0]?
      = ((["a", "b", "c"] : List String)[2]?).map (fun b => (3, b)) ∧
    ((sendSequence ["a", "b", "c"])[0]?).map Prod.fst = some 3 ∧
    ((sendSequence ["a", "b", "c"])[0]?).map Prod.snd
      = (["a", "b", "c"] : List String)[2]? ∧
    (ntfyRequests "Daily Summary" ["a", "b", "c"])[0]?
      = ((["a", "b", "c"] : List String)[2]?).map
          (fun b => (ntfyTitle "Daily Summary" 3 3, b)) :=
  C4_reverse_order_logical_numbering ["a", "b", "c"] "Daily Summary" 0 (by decide)

/-! ## Rate-limit retry (C6) -/

/-- C6: an ntfy batch whose first send returns HTTP 429 is retried exactly
once (exactly two transport calls for that batch, never a third), the
retry outcome is final for the batch, and the loop counts every batch —
retried or not — at most once, so a batch succeeding on retry is counted
exactly once. -/
theorem C6_rate_limit_retry (url : String)
    (trans : String → Nat → Option NtfyResp) (c : Nat) (r : NtfyResp)
    (htr : trans url c = some r) (h429 : r.status = 429) :
    (ntfySendBatch trans url c).2 = c + 2 ∧
    (ntfySendBatch trans url c).1 =
      (match trans url (c + 1) with
       | none => false
       | some retry_response => decide (retry_response.status = 200)) ∧
    (∀ (bs : List String) (start : Nat), (ntfyLoop trans url bs start).1 ≤ bs.length) := by
  have hne200 : r.status ≠ 200 := by rw [h429]; decide
  refine ⟨?_, ?_, fun bs start => ntfyLoop_le_length trans url bs start⟩
  · unfold ntfySendBatch
    rw [htr]
    dsimp only
    rw [if_neg hne200, if_pos h429]
    cases trans url (c + 1) <;> rfl
  · unfold ntfySendBatch
    rw [htr]
    dsimp only
    rw [if_neg hne200, if_pos h429]
    cases trans url (c + 1) <;> rfl

/-- C6 witness: a 429 followed by a 200 on the retry — the batch consumes
exactly two transport calls, succeeds, and a one-batch run counts one
success. -/
theorem C6_rate_limit_retry_witness :
    (ntfySendBatch (fun _ k => if k == 0 then some ⟨429⟩ else some ⟨200⟩) "u" 0).2 = 2 ∧
    (ntfySendBatch (fun _ k => if k == 0 then some ⟨429⟩ else some ⟨200⟩) "u" 0).1 =
      (match (fun (_ : String) (k : Nat) =>
          if k == 0 then some (⟨429⟩ : NtfyResp) else some ⟨200⟩) "u" 1 with
       | none => false
       | some retry_response => decide (retry_response.status = 200)) ∧
    (∀ (bs : List String) (start : Nat),
      (ntfyLoop (fun _ k => if k == 0 then some ⟨429⟩ else some ⟨200⟩) "u" bs start).1
        ≤ bs.length) :=
  C6_rate_limit_retry "u" (fun _ k => if k == 0 then some ⟨429⟩ else some ⟨200⟩)
    0 ⟨429⟩ (by rfl) (by rfl)

/-! ## Feishu podcast attachment (C10) -/

theorem build_payload_no_sections (bc : String)
    (pd : List (String × PodcastEntry)) (sums btns : Bool) (mx mk : Nat) :
    build_feishu_card_payload bc pd false sums btns mx mk
      = [CardElement.markdown bc] := by
  simp [build_feishu_card_payload]

theorem usablePodcastItems_ne_nil (pd : List (String × PodcastEntry))
    (h : usablePodcastItems pd ≠ []) :
    ∃ p ∈ pd, p.1 ≠ "" ∧
      (trimString p.2.audio_url ≠ "" ∨ trimString p.2.summary ≠ "") := by
  rw [usablePodcastItems, Ne, List.filterMap_eq_nil_iff] at h
  push_neg at h
  obtain ⟨p, hp, hfp⟩ := h
  refine ⟨p, hp, ?_, ?_⟩
  · intro e1
    exact hfp (by simp [e1])
  · by_cases e2 : trimString p.2.audio_url = ""
    · right
      intro e3
      apply hfp
      by_cases e1 : p.1 = "" <;> simp [e1, e2, e3]
    · left; exact e2

/-- C10: podcast side content goes to exactly the first batch — the guard
`is_first_batch or (is_last_batch and len(batches) == 1)` holds iff
`i = 1` for every `1 ≤ i ≤ n`; with the guard off the card is just the
batch text; the podcast sections appear only when some `podcast_data`
entry has a non-empty (stripped) `audio_url` or `summary` (and a non-empty
keyword), and do appear on a guarded batch when one does; consequently,
for `n > 1`, every batch after the first carries only its text content. -/
theorem C10_feishu_podcast_first_batch :
    (∀ i n, 1 ≤ i → i ≤ n → (feishuIncludePodcast i n = true ↔ i = 1)) ∧
    (∀ (bc : String) (pd : List (String × PodcastEntry))
       (sums btns : Bool) (mx mk : Nat),
       build_feishu_card_payload bc pd false sums btns mx mk
         = [CardElement.markdown bc]) ∧
    (∀ (bc : String) (pd : List (String × PodcastEntry))
       (incl sums btns : Bool) (mx mk : Nat),
       build_feishu_card_payload bc pd incl sums btns mx mk
         ≠ [CardElement.markdown bc] →
       incl = true ∧ ∃ p ∈ pd, p.1 ≠ "" ∧
         (trimString p.2.audio_url ≠ "" ∨ trimString p.2.summary ≠ "")) ∧
    (∀ (bc : String) (pd : List (String × PodcastEntry)) (mx mk : Nat),
       usablePodcastItems pd ≠ [] →
       build_feishu_card_payload bc pd true false true mx mk
         ≠ [CardElement.markdown bc]) ∧
    (∀ (bs : List String) (pd : List (String × PodcastEntry)) (i : Nat),
       1 ≤ i → i < bs.length →
       (feishuPayloads bs pd)[i]?
         = (bs[i]?).map (fun b => [CardElement.markdown b])) := by
  refine ⟨?_, ?_, ?_, ?_, ?_⟩
  · intro i n h1 h2
    simp only [feishuIncludePodcast, Bool.or_eq_true, Bool.and_eq_true,
      beq_iff_eq]
    omega
  · exact build_payload_no_sections
  · intro bc pd incl sums btns mx mk h
    cases hincl : incl with
    | false =>
      subst hincl
      exact absurd (build_payload_no_sections bc pd sums btns mx mk) h
    | true =>
      subst hincl
      refine ⟨rfl, ?_⟩
      by_cases hpd : pd = []
      · subst hpd
        simp [build_feishu_card_payload] at h
      · by_cases hitems : usablePodcastItems pd = []
        · simp [build_feishu_card_payload, hpd, hitems] at h
        · exact usablePodcastItems_ne_nil pd hitems
  · intro bc pd mx mk husable
    have hpd : pd ≠ [] := by
      intro e
      subst e
      exact husable rfl
    intro heq
    simp [build_feishu_card_payload, hpd, husable] at heq
  · intro bs pd i h1 h2
    simp only [feishuPayloads, List.getElem?_map, List.getElem?_enum]
    have hsome : ∃ b, bs[i]? = some b := by
      rw [List.getElem?_eq_getElem h2]
      exact ⟨_, rfl⟩
    obtain ⟨b, hb⟩ := hsome
    rw [hb]
    show some (build_feishu_card_payload b pd
        (feishuIncludePodcast (i + 1) bs.length) false true 600 10)
      = some [CardElement.markdown b]
    have hg : feishuIncludePodcast (i + 1) bs.length = false := by
      simp only [feishuIncludePodcast, Bool.or_eq_false_iff,
        Bool.and_eq_false_iff, beq_eq_false_iff_ne, ne_eq]
      omega
    rw [hg, build_payload_no_sections]

/-- C10 witness: with two batches and a usable podcast entry, batch 2's
guard is off and its card is only its text, while batch 1's card carries
the podcast sections. -/
theorem C10_feishu_podcast_first_batch_witness :
    feishuIncludePodcast 2 3 = false ∧
    build_feishu_card_payload "b2" [("k", ⟨"u", "s", 2⟩)] false false true 600 10
      = [CardElement.markdown "b2"] ∧
    build_feishu_card_payload "b1" [("k", ⟨"u", "s", 2⟩)] true false true 600 10
      ≠ [CardElement.markdown "b1"] ∧
    (feishuPayloads ["b1", "b2"] [("k", ⟨"u", "s", 2⟩)])[1]?
      = some [CardElement.markdown "b2"] := by
  have h := C10_feishu_podcast_first_batch
  refine ⟨?_, ?_, ?_, ?_⟩
  · cases hg : feishuIncludePodcast 2 3 with
    | false => rfl
    | true => exact absurd ((h.1 2 3 (by decide) (by decide)).mp hg) (by decide)
  · exact h.2.1 "b2" [("k", ⟨"u", "s", 2⟩)] false true 600 10
  · exact h.2.2.2.1 "b1" [("k", ⟨"u", "s", 2⟩)] 600 10 (by decide)
  · have he := h.2.2.2.2 ["b1", "b2"] [("k", ⟨"u", "s", 2⟩)] 1 (by decide) (by decide)
    rw [he]
    rfl

end TrendRadar
